import Mathlib

/-!
Verification of the client-side coordination layer of the `this_is_me`
portfolio site: a shallow embedding in Lean 4 of its StateManager,
ThemeManager, I18nManager and BlogManager logic, with theorems about the
contracts these components are documented to satisfy.

Modelling conventions:
* JavaScript values are modelled by the inductive `JsValue` below; strings
  are Lean strings (sequences of Unicode scalar values), numbers the
  integers the scripts actually store, and objects insertion-ordered
  association lists (matching JS own-property order).
* Browser effects (localStorage, console, the event bus, subscriber
  callbacks) are modelled by explicit state threading plus an explicit
  `Effect` trace; subscriber callbacks are modelled as observers that may
  throw but do not write back into the store, and console log text is
  abbreviated to the value the source interpolates into the message.
* Network activity (`fetch`, `response.json()`) is modelled by an oracle
  from url to outcome, and `new Date(s)` by an oracle from string to an
  optional (year, monthIndex, day) triple, `none` standing for an Invalid
  Date (whose component getters return NaN without throwing).
-/

set_option autoImplicit false

namespace Portfolio

/-- JavaScript values as manipulated by the portfolio scripts. -/
inductive JsValue where
  | undefined
  | null
  | bool (b : Bool)
  | num (n : Int)
  | str (s : String)
  | arr (elems : List JsValue)
  | obj (fields : List (String × JsValue))

/-- JS truthiness (`if (v)`); `NaN` never arises for the values modelled. -/
def truthy : JsValue → Bool
  | .undefined => false
  | .null => false
  | .bool b => b
  | .num n => n != 0
  | .str s => s != ""
  | .arr _ => true
  | .obj _ => true

/-- The test `typeof v === 'object'` (true for `null`, arrays and objects). -/
def isObjectTypeof : JsValue → Bool
  | .null => true
  | .arr _ => true
  | .obj _ => true
  | _ => false

/-- Generic association-list lookup (first binding wins; JS objects and
localStorage keep keys unique). -/
def assocLookup {α : Type} : List (String × α) → String → Option α
  | [], _ => none
  | (k, v) :: rest, key => if k = key then some v else assocLookup rest key

/-- Generic association-list update: overwrite in place, else append
(matching JS property-assignment order). -/
def assocSet {α : Type} : List (String × α) → String → α → List (String × α)
  | [], key, v => [(key, v)]
  | (k, w) :: rest, key, v =>
      if k = key then (k, v) :: rest else (k, w) :: assocSet rest key v

/-- Removal of a key (`localStorage.removeItem`). -/
def assocRemove {α : Type} (l : List (String × α)) (key : String) : List (String × α) :=
  l.filter fun kv => kv.1 ≠ key

/-- Whether string `k` is a canonical array index below the length. -/
def arrayHasIndex (elems : List JsValue) (k : String) : Bool :=
  match k.toNat? with
  | some i => toString i == k && decide (i < elems.length)
  | none => false

/-- The JS `k in v` test restricted to own properties of the JSON-shaped data
the scripts handle (object keys; array indices and `length`). -/
def hasProp (v : JsValue) (k : String) : Bool :=
  match v with
  | .obj fields => (assocLookup fields k).isSome
  | .arr elems => k == "length" || arrayHasIndex elems k
  | _ => false

/-- Property read `v[k]` on the same fragment of JS. -/
def getProp (v : JsValue) (k : String) : JsValue :=
  match v with
  | .obj fields => (assocLookup fields k).getD .undefined
  | .arr elems =>
      if k = "length" then .num elems.length
      else
        match k.toNat? with
        | some i => (elems.get? i).getD .undefined
        | none => .undefined
  | _ => .undefined

mutual

/-- The JS `String(v)` coercion used implicitly by `localStorage.setItem`. -/
def jsToString : JsValue → String
  | .undefined => "undefined"
  | .null => "null"
  | .bool b => cond b "true" "false"
  | .num n => toString n
  | .str s => s
  | .arr elems => jsJoinArray elems
  | .obj _ => "[object Object]"

/-- Array-to-string coercion: comma join, with null/undefined elements
rendered as the empty string. -/
def jsJoinArray : List JsValue → String
  | [] => ""
  | [.undefined] => ""
  | [.null] => ""
  | [e] => jsToString e
  | .undefined :: rest => "," ++ jsJoinArray rest
  | .null :: rest => "," ++ jsJoinArray rest
  | e :: rest => jsToString e ++ "," ++ jsJoinArray rest

end

/-! ## I18nManager.t (src/scripts/managers/I18nManager.js, lines 594-607) -/

/-- Loop body of `I18nManager.t`: walk the split key segments, returning the
fallback as soon as the guard
`value && typeof value === 'object' && k in value` fails. -/
def tWalk (fallback : JsValue) : JsValue → List String → JsValue
  | v, [] => v
  | v, k :: ks =>
      if truthy v && isObjectTypeof v && hasProp v k then
        tWalk fallback (getProp v k) ks
      else fallback

/-- The method `t(key, fallback)` with an explicit fallback argument. -/
def tFun (translations : JsValue) (key : String) (fallback : JsValue) : JsValue :=
  tWalk fallback translations (key.splitOn ".")

/-- The method `t(key)` with the fallback defaulted to the key itself. -/
def tDefault (translations : JsValue) (key : String) : JsValue :=
  tFun translations key (.str key)

/-- Spec-side notion: a value is an indexable object exactly when it is an
array or a plain object. -/
def isIndexable : JsValue → Bool
  | .arr _ => true
  | .obj _ => true
  | _ => false

/-- Modelled from the spec wording for `t(dotPath, fallback)`: resolve the
dotted key path through the nested bundle one segment at a time, failing as
soon as a segment is absent or the current value is un-indexable. -/
def resolvePath : JsValue → List String → Option JsValue
  | v, [] => some v
  | v, k :: ks =>
      if isIndexable v && hasProp v k then resolvePath (getProp v k) ks
      else none

/-! ## StateManager (src/unnamed/part_007) -/

/-- The StateManager store: the `state` object plus localStorage. -/
structure Store where
  state : List (String × JsValue)
  storage : List (String × String)

/-- A subscriber callback: `run` reports whether the invocation with
(newValue, oldValue) returns normally (`true`) or throws (`false`). -/
structure Callback where
  id : Nat
  run : JsValue → JsValue → Bool

/-- Browser side effects performed by the managers, in execution order. -/
inductive Effect where
  | setItem (storageKey value : String)
  | removeItem (storageKey : String)
  | invoke (cbId : Nat) (newValue oldValue : JsValue)
  | consoleError (cbId : Nat)
  | consoleWarn (value : String)
  | emitChanged (key : String) (value oldValue : JsValue)
  | emitReset

/-- `StateManager.getState(key)`: `this.state[key]` (undefined if absent). -/
def getState (st : Store) (key : String) : JsValue :=
  (assocLookup st.state key).getD .undefined

/-- `StateManager.notifySubscribers`: call every callback for the key in
list order inside try/catch, logging (not propagating) a thrown error. -/
def notifySubscribers (subs : List Callback) (value oldValue : JsValue) : List Effect :=
  subs.flatMap fun cb =>
    Effect.invoke cb.id value oldValue ::
      (if cb.run value oldValue then [] else [Effect.consoleError cb.id])

/-- `StateManager.persistState`: write through to localStorage for the two
persisted keys only. -/
def persistState (storage : List (String × String)) (key : String) (v : JsValue) :
    List (String × String) × List Effect :=
  if key = "theme" then
    (assocSet storage "portfolio-theme" (jsToString v),
     [Effect.setItem "portfolio-theme" (jsToString v)])
  else if key = "language" then
    (assocSet storage "portfolio-lang" (jsToString v),
     [Effect.setItem "portfolio-lang" (jsToString v)])
  else (storage, [])

/-- `StateManager.setState`: overwrite, persist, notify, then emit the
generic `state:changed` event.  The subscriber registry is passed as the
map `subs` from key to callback list. -/
def setState (subs : String → List Callback) (st : Store) (key : String) (v : JsValue) :
    Store × List Effect :=
  let oldValue := getState st key
  let state1 := assocSet st.state key v
  let persisted := persistState st.storage key v
  (⟨state1, persisted.1⟩,
    persisted.2 ++ notifySubscribers (subs key) v oldValue ++
      [Effect.emitChanged key v oldValue])

/-- Callback lists currently registered for a key (empty if none). -/
def getSubs (m : List (String × List Callback)) (key : String) : List Callback :=
  (assocLookup m key).getD []

/-- `StateManager.subscribe`: create the key's list if missing, then push
the callback at the end. -/
def subscribeCb (m : List (String × List Callback)) (key : String) (cb : Callback) :
    List (String × List Callback) :=
  match assocLookup m key with
  | some l => assocSet m key (l ++ [cb])
  | none => m ++ [(key, [cb])]

/-- Subscribing a sequence of callbacks one after another. -/
def subscribeEach (m : List (String × List Callback)) (key : String)
    (cbs : List Callback) : List (String × List Callback) :=
  cbs.foldl (fun acc cb => subscribeCb acc key cb) m

/-- The state object literal built in the StateManager constructor. -/
def initialStateFields : List (String × JsValue) :=
  [("theme", .str "light"), ("language", .str "ko"), ("isNavOpen", .bool false),
   ("isTypingAnimationComplete", .bool false), ("translations", .obj [])]

/-- `StateManager.loadPersistedState`: copy the two storage keys into the
state when present and non-empty (the `if (saved...)` truthiness test). -/
def loadPersistedState (storage : List (String × String))
    (state : List (String × JsValue)) : List (String × JsValue) :=
  let s1 :=
    match assocLookup storage "portfolio-theme" with
    | some t => if t = "" then state else assocSet state "theme" (.str t)
    | none => state
  match assocLookup storage "portfolio-lang" with
  | some l => if l = "" then s1 else assocSet s1 "language" (.str l)
  | none => s1

/-- The StateManager constructor followed by `init` (event-listener wiring
has no effect on the store itself). -/
def newStateManager (storage : List (String × String)) : Store :=
  ⟨loadPersistedState storage initialStateFields, storage⟩

/-- The replacement state object literal built inside `reset()`. -/
def resetStateFields : List (String × JsValue) :=
  [("theme", .str "light"), ("language", .str "en"), ("isNavOpen", .bool false),
   ("isTypingAnimationComplete", .bool false), ("translations", .obj [])]

/-- `StateManager.reset`: replace the state object, clear the two
persisted storage keys, notify each key's subscribers with
(restored value, undefined) in key order, then emit `state:reset`. -/
def reset (subs : String → List Callback) (st : Store) : Store × List Effect :=
  let notifyEffs := resetStateFields.flatMap fun kv =>
    notifySubscribers (subs kv.1) kv.2 .undefined
  (⟨resetStateFields, assocRemove (assocRemove st.storage "portfolio-theme") "portfolio-lang"⟩,
    [Effect.removeItem "portfolio-theme", Effect.removeItem "portfolio-lang"] ++
      notifyEffs ++ [Effect.emitReset])

/-- The subscriber invocations recorded in a trace, in order. -/
def invokedCalls (tr : List Effect) : List (Nat × JsValue × JsValue) :=
  tr.filterMap fun e =>
    match e with
    | .invoke i nv ov => some (i, nv, ov)
    | _ => none

/-- The `state:changed` emissions recorded in a trace, in order. -/
def changedEmits (tr : List Effect) : List (String × JsValue × JsValue) :=
  tr.filterMap fun e =>
    match e with
    | .emitChanged k v o => some (k, v, o)
    | _ => none

/-! ## ThemeManager (src/scripts/managers/ThemeManager.js) -/

/-- The validity test in `ThemeManager.setTheme`
(`theme !== 'light' && theme !== 'dark'` negated). -/
def isValidTheme : JsValue → Bool
  | .str s => s == "light" || s == "dark"
  | _ => false

/-- `ThemeManager.setTheme`: coerce invalid input to light (with a console
warning), then write through `StateManager.setState`. -/
def setTheme (subs : String → List Callback) (st : Store) (theme : JsValue) :
    Store × List Effect :=
  if isValidTheme theme then setState subs st "theme" theme
  else
    let r := setState subs st "theme" (.str "light")
    (r.1, Effect.consoleWarn (jsToString theme) :: r.2)

/-- The `currentTheme === 'dark'` test in `toggleTheme`. -/
def isDarkValue : JsValue → Bool
  | .str s => s == "dark"
  | _ => false

/-- `ThemeManager.toggleTheme`: flip dark to light and anything else to
dark, then `setTheme`. -/
def toggleTheme (subs : String → List Callback) (st : Store) : Store × List Effect :=
  setTheme subs st
    (.str (if isDarkValue (getState st "theme") then "light" else "dark"))

/-- `ThemeManager.getCurrentTheme`: read the theme from the state store. -/
def getCurrentTheme (st : Store) : JsValue :=
  getState st "theme"

/-- The two-value theme property asserted by the spec. -/
def themeOk (v : JsValue) : Prop :=
  v = .str "light" ∨ v = .str "dark"

/-! ## I18nManager.loadTranslations (src/scripts/managers/I18nManager.js,
lines 133-197) and its hardcoded fallback bundles (lines 203-302).

The fetch loop is modelled by an oracle from path to outcome; the
i18n event-bus emissions and the loading-feedback DOM class, which do not
touch the store, are elided from the trace. -/

/-- Outcome of `fetch(path)` followed by `response.json()`:
`netError` models a rejected fetch, `notOk` a non-2xx response, and
`ok none` an OK response whose body fails to parse as JSON. -/
inductive FetchOutcome where
  | netError
  | notOk
  | ok (payload : Option JsValue)

/-- The ordered candidate paths tried for a language bundle. -/
def candidatePaths (lang : String) : List String :=
  ["./languages/" ++ lang ++ ".json",
   "languages/" ++ lang ++ ".json",
   "/languages/" ++ lang ++ ".json"]

/-- The fetch loop: break at the first HTTP-OK response (keeping its parsed
body), otherwise fall through with no response to use. -/
def firstOkResult (f : String → FetchOutcome) : List String → Option (Option JsValue)
  | [] => none
  | p :: rest =>
      match f p with
      | .ok payload => some payload
      | _ => firstOkResult f rest

/-- The `currentLang === 'ko'` test in `getFallbackTranslations`. -/
def isKo : JsValue → Bool
  | .str s => s == "ko"
  | _ => false

/-- The hardcoded Korean fallback bundle. -/
def koFallback : JsValue := .obj
  [("meta", .obj
      [("title", .str "이우용 - 포트폴리오"),
       ("description", .str "백엔드 개발자 포트폴리오"),
       ("keywords", .str "백엔드 개발자, Java, Spring, 포트폴리오"),
       ("favicon", .str "./favicon.png")]),
   ("hero", .obj
      [("line1", .str "안녕하세요,"), ("line2", .str "이우용 입니다."),
       ("name", .str "이우용"), ("subtitle", .str "백엔드 개발자"),
       ("ctaText", .str "프로젝트 보기"), ("ctaLink", .str "#projects")]),
   ("about", .obj
      [("title", .str "소개"),
       ("description", .str "깔끔하고 확장 가능한 시스템 구축에 열정을 가지고 있습니다."),
       ("details", .arr [.str "현대적인 기술로 의미 있는 솔루션을 만들어갑니다."])]),
   ("projects", .obj [("title", .str "프로젝트"), ("items", .arr [])]),
   ("skills", .obj [("title", .str "기술 스택"), ("categories", .arr [])]),
   ("blog", .obj [("title", .str "블로그"), ("posts", .arr [])]),
   ("footer", .obj
      [("copyright", .str "© 2025"), ("author", .str "이우용"), ("authorLink", .str "#")]),
   ("ui", .obj [("github", .str "GitHub"), ("readMore", .str "자세히 보기")]),
   ("social", .obj [("github", .str "#"), ("linkedin", .str "#")])]

/-- The hardcoded English fallback bundle. -/
def enFallback : JsValue := .obj
  [("meta", .obj
      [("title", .str "Wooyong Lee - Portfolio"),
       ("description", .str "Backend Developer Portfolio"),
       ("keywords", .str "backend developer, Java, Spring, portfolio"),
       ("favicon", .str "./favicon.png")]),
   ("hero", .obj
      [("line1", .str "Hi, I\x27m"), ("line2", .str "Wooyong Lee"),
       ("name", .str "Wooyong Lee"), ("subtitle", .str "Backend Developer"),
       ("ctaText", .str "View My Work"), ("ctaLink", .str "#projects")]),
   ("about", .obj
      [("title", .str "About Me"),
       ("description", .str "I\x27m passionate about building clean and scalable systems."),
       ("details", .arr [.str "Creating meaningful solutions with modern technologies."])]),
   ("projects", .obj [("title", .str "Projects"), ("items", .arr [])]),
   ("skills", .obj [("title", .str "Skills"), ("categories", .arr [])]),
   ("blog", .obj [("title", .str "Blog"), ("posts", .arr [])]),
   ("footer", .obj
      [("copyright", .str "© 2025"), ("author", .str "Wooyong Lee"), ("authorLink", .str "#")]),
   ("ui", .obj [("github", .str "GitHub"), ("readMore", .str "Read More")]),
   ("social", .obj [("github", .str "#"), ("linkedin", .str "#")])]

/-- `I18nManager.getFallbackTranslations`: Korean bundle when the current
language state is 'ko', English bundle otherwise. -/
def getFallbackTranslations (st : Store) : JsValue :=
  if isKo (getState st "language") then koFallback else enFallback

/-- The acceptance test on a fetched body:
`data && typeof data === 'object'` (its negation throws into the catch). -/
def acceptablePayload (d : JsValue) : Bool :=
  truthy d && isObjectTypeof d

/-- `I18nManager.loadTranslations(lang)`: no-op when a load is in flight;
otherwise take the first HTTP-OK candidate response, accept its body when
it parses to a truthy object, and on any failure substitute the hardcoded
fallback bundle for the current language; either way the result is written
to the `translations` state. -/
def loadTranslations (subs : String → List Callback) (isLoading : Bool)
    (f : String → FetchOutcome) (lang : String) (st : Store) : Store × List Effect :=
  if isLoading then (st, [])
  else
    match firstOkResult f (candidatePaths lang) with
    | some (some data) =>
        if acceptablePayload data then setState subs st "translations" data
        else setState subs st "translations" (getFallbackTranslations st)
    | _ => setState subs st "translations" (getFallbackTranslations st)

/-- An empty JS object (the empty translations bundle). -/
def isEmptyObject : JsValue → Bool
  | .obj [] => true
  | _ => false

/-! ## BlogManager feed parsing (src/unnamed/part_006, lines 207-322) -/

/-- The whitespace classified by the JS `trim()` for the text handled here. -/
def jsIsSpace (c : Char) : Bool :=
  c == ' ' || c == '\t' || c == '\n' || c == '\r' || c == '\x0b' || c == '\x0c'

/-- Drop leading whitespace. -/
def dropLeadingSpace : List Char → List Char
  | [] => []
  | c :: rest => if jsIsSpace c then dropLeadingSpace rest else c :: rest

/-- `s.trim()`: remove whitespace from both ends. -/
def jsTrimList (cs : List Char) : List Char :=
  ((dropLeadingSpace (dropLeadingSpace cs).reverse)).reverse

/-- One left-to-right pass of `html.replace(/<[^>]*>/g, '')`: outside a
tag, a `<` opens one; inside a tag the characters are buffered (reversed)
until the closing `>` discards them, and an unclosed trailing tag is kept
verbatim, since the regex only matches up to a real `>`. -/
def stripTagsGo : Bool → List Char → List Char → List Char
  | false, _, [] => []
  | false, _, '<' :: rest => stripTagsGo true ['<'] rest
  | false, _, c :: rest => c :: stripTagsGo false [] rest
  | true, pending, [] => pending.reverse
  | true, _, '>' :: rest => stripTagsGo false [] rest
  | true, pending, c :: rest => stripTagsGo true (c :: pending) rest

/-- `html.replace(/<[^>]*>/g, '')`. -/
def stripTags (cs : List Char) : List Char :=
  stripTagsGo false [] cs

/-- `BlogManager.cleanHtmlAndTruncate`: strip the HTML tags, trim, and cap
at `maxLength` characters with a trailing ellipsis when truncation
happens (re-trimming the truncated prefix first). -/
def cleanHtmlAndTruncate (html : String) (maxLength : Nat) : String :=
  let text := jsTrimList (stripTags html.data)
  if text.length ≤ maxLength then String.mk text
  else String.mk (jsTrimList (text.take maxLength)) ++ "..."

/-- `String(n).padStart(2, '0')`. -/
def padStart2 (s : String) : String :=
  if 2 ≤ s.length then s else String.mk (List.replicate (2 - s.length) '0') ++ s

/-- The components `new Date(s)` exposes through the getters used by
`formatDate` (`getMonth()` is 0-based). -/
structure JsDate where
  year : Int
  monthIndex : Nat
  day : Nat

/-- `BlogManager.formatDate`, over a date-parsing oracle: an Invalid Date
(`parse s = none`) makes every component `NaN` — the getters do not throw,
so the interpolation yields the literal string below and the catch branch
returning the unknown-date marker can never run. -/
def formatDate (parse : String → Option JsDate) (dateString : String) : String :=
  match parse dateString with
  | some d =>
      toString d.year ++ "." ++ padStart2 (toString (d.monthIndex + 1)) ++ "." ++
        padStart2 (toString d.day)
  | none => "NaN.NaN.NaN"

/-- A `<category>` entry as seen by `extractTags`: from the RSS XML path it
is always the element text, but the RSS2JSON path can hand over non-string
entries carrying an optional `name`. -/
inductive RssCategory where
  | str (s : String)
  | withName (name : String)
  | unnamed

/-- The map body of `extractTags`:
`typeof category === 'string' ? category : category.name || 'Blog'`. -/
def categoryToTag : RssCategory → String
  | .str s => s
  | .withName name => if name = "" then "Blog" else name
  | .unnamed => "Blog"

/-- `BlogManager.extractTags`: default tag for an empty category list,
otherwise at most the first three categories. -/
def extractTags (categories : List RssCategory) : List String :=
  if categories.isEmpty then ["Blog"]
  else (categories.take 3).map categoryToTag

/-- The `x?.textContent || d` defaulting pattern: a missing node or empty
text (both falsy) yield the default. -/
def jsOrDefault (o : Option String) (d : String) : String :=
  match o with
  | some s => if s = "" then d else s
  | none => d

/-- One `<item>` of the RSS feed, reduced to the nodes `parseRssXml`
reads (`none` models a missing child element). -/
structure RssItem where
  title : Option String
  link : Option String
  description : Option String
  pubDate : Option String
  categories : List String

/-- The record pushed for each feed item. -/
structure PostSummary where
  title : String
  description : String
  date : String
  link : String
  tags : List String
  source : String

/-- `this.maxPosts` from the BlogManager constructor. -/
def maxPosts : Nat := 6

/-- The loop body of `parseRssXml` for one item. -/
def mkPost (parse : String → Option JsDate) (item : RssItem) : PostSummary :=
  { title := jsOrDefault item.title "제목 없음"
    description := cleanHtmlAndTruncate (jsOrDefault item.description "") 150
    date := formatDate parse (jsOrDefault item.pubDate "")
    link := jsOrDefault item.link "#"
    tags := extractTags (item.categories.map RssCategory.str)
    source := "tistory" }

/-- `BlogManager.parseRssXml`: transform at most `maxPosts` feed items. -/
def parseRssXml (parse : String → Option JsDate) (items : List RssItem) :
    List PostSummary :=
  (items.take maxPosts).map (mkPost parse)

/-- A sample feed item used to instantiate the parsing theorems. -/
def demoItem : RssItem :=
  { title := some "Sample post"
    link := some "https://arex.tistory.com/1"
    description := some "<p>hello <b>world</b></p>"
    pubDate := some "Mon, 15 Dec 2024 10:00:00 +0900"
    categories := [] }

/-- A date-parse oracle recognising the sample item's publication date. -/
def demoParse : String → Option JsDate := fun s =>
  if s = "Mon, 15 Dec 2024 10:00:00 +0900" then some ⟨2024, 11, 15⟩ else none

end Portfolio

namespace Portfolio

/-! ## Theorems -/

theorem truthy_object_iff_indexable (v : JsValue) (k : String) :
    (truthy v && isObjectTypeof v && hasProp v k) = (isIndexable v && hasProp v k) := by
  cases v <;> simp [truthy, isObjectTypeof, isIndexable, hasProp]

theorem tWalk_eq_resolvePath (fb v : JsValue) (ks : List String) :
    tWalk fb v ks = (resolvePath v ks).getD fb := by
  induction ks generalizing v with
  | nil => rfl
  | cons k ks ih =>
      rw [tWalk, resolvePath, truthy_object_iff_indexable]
      cases h : (isIndexable v && hasProp v k) with
      | true => simp [ih]
      | false => simp

theorem assocLookup_assocSet_self {α : Type} (l : List (String × α)) (key : String) (v : α) :
    assocLookup (assocSet l key v) key = some v := by
  induction l with
  | nil => simp [assocSet, assocLookup]
  | cons kv rest ih =>
      obtain ⟨k, w⟩ := kv
      by_cases h : k = key
      · simp [assocSet, assocLookup, h]
      · simp [assocSet, assocLookup, h, ih]

theorem assocLookup_assocRemove_self {α : Type} (l : List (String × α)) (key : String) :
    assocLookup (assocRemove l key) key = none := by
  induction l with
  | nil => rfl
  | cons kv rest ih =>
      obtain ⟨k, w⟩ := kv
      by_cases h : k = key
      · simp [assocRemove, List.filter_cons, h] at ih ⊢; exact ih
      · simp [assocRemove, List.filter_cons, h, assocLookup] at ih ⊢; exact ih

theorem assocLookup_assocRemove_ne {α : Type} (l : List (String × α)) (k1 k2 : String)
    (hne : k1 ≠ k2) : assocLookup (assocRemove l k1) k2 = assocLookup l k2 := by
  induction l with
  | nil => rfl
  | cons kv rest ih =>
      obtain ⟨k, w⟩ := kv
      by_cases hk : k = k1
      · subst hk
        have hdrop : assocRemove ((k, w) :: rest) k = assocRemove rest k := by
          simp [assocRemove, List.filter_cons]
        rw [hdrop, ih]
        simp [assocLookup, hne]
      · have hkeep : assocRemove ((k, w) :: rest) k1 = (k, w) :: assocRemove rest k1 := by
          simp [assocRemove, List.filter_cons, hk]
        rw [hkeep]
        by_cases hk2 : k = k2
        · simp [assocLookup, hk2]
        · simp [assocLookup, hk2, ih]

theorem invokedCalls_append (a b : List Effect) :
    invokedCalls (a ++ b) = invokedCalls a ++ invokedCalls b :=
  List.filterMap_append a b _

theorem invokedCalls_notify (subs : List Callback) (v old : JsValue) :
    invokedCalls (notifySubscribers subs v old) = subs.map fun cb => (cb.id, v, old) := by
  induction subs with
  | nil => rfl
  | cons cb rest ih =>
      cases h : cb.run v old <;>
        simp [notifySubscribers, invokedCalls, List.flatMap_cons, List.filterMap_append,
          List.filterMap_cons, h] at ih ⊢ <;> exact ih

theorem invokedCalls_flatMap {α : Type} (l : List α) (f : α → List Effect) :
    invokedCalls (l.flatMap f) = l.flatMap fun a => invokedCalls (f a) := by
  induction l with
  | nil => rfl
  | cons a rest ih => simp [List.flatMap_cons, invokedCalls_append, ih]

theorem invokedCalls_nil : invokedCalls [] = [] := rfl

theorem invokedCalls_setItem (k v : String) : invokedCalls [Effect.setItem k v] = [] := rfl

theorem invokedCalls_emitChanged (k : String) (v o : JsValue) :
    invokedCalls [Effect.emitChanged k v o] = [] := rfl

theorem changedEmits_nil : changedEmits [] = [] := rfl

theorem changedEmits_setItem (k v : String) : changedEmits [Effect.setItem k v] = [] := rfl

theorem changedEmits_emitChanged (k : String) (v o : JsValue) :
    changedEmits [Effect.emitChanged k v o] = [(k, v, o)] := rfl

theorem invokedCalls_cons_setItem (k v : String) (tr : List Effect) :
    invokedCalls (Effect.setItem k v :: tr) = invokedCalls tr := rfl

theorem changedEmits_cons_setItem (k v : String) (tr : List Effect) :
    changedEmits (Effect.setItem k v :: tr) = changedEmits tr := rfl

theorem changedEmits_append (a b : List Effect) :
    changedEmits (a ++ b) = changedEmits a ++ changedEmits b :=
  List.filterMap_append a b _

theorem changedEmits_notify (subs : List Callback) (v old : JsValue) :
    changedEmits (notifySubscribers subs v old) = [] := by
  induction subs with
  | nil => rfl
  | cons cb rest ih =>
      cases h : cb.run v old <;>
        simp [notifySubscribers, changedEmits, List.flatMap_cons, List.filterMap_append,
          List.filterMap_cons, h] at ih ⊢ <;> exact ih

/-- C1: `setState(k, v)` unconditionally overwrites `state[k]` with `v`,
persists to localStorage exactly for the keys `theme` (under
`portfolio-theme`) and `language` (under `portfolio-lang`) and for no
other key, then synchronously invokes the subscribers registered for `k`
in order with (new value, old value), and afterwards emits a single
generic `state:changed` event carrying the key, value and old value — in
that order. -/
theorem setState_contract (subs : String → List Callback) (st : Store)
    (key : String) (v : JsValue) :
    getState (setState subs st key v).1 key = v ∧
    (setState subs st key v).1.storage =
      (if key = "theme" then assocSet st.storage "portfolio-theme" (jsToString v)
       else if key = "language" then assocSet st.storage "portfolio-lang" (jsToString v)
       else st.storage) ∧
    (setState subs st key v).2 =
      (if key = "theme" then [Effect.setItem "portfolio-theme" (jsToString v)]
       else if key = "language" then [Effect.setItem "portfolio-lang" (jsToString v)]
       else []) ++
      notifySubscribers (subs key) v (getState st key) ++
      [Effect.emitChanged key v (getState st key)] ∧
    invokedCalls (setState subs st key v).2 =
      (subs key).map (fun cb => (cb.id, v, getState st key)) ∧
    changedEmits (setState subs st key v).2 = [(key, v, getState st key)] ∧
    (setState subs st key v).2.getLast? = some (Effect.emitChanged key v (getState st key)) := by
  refine ⟨?_, ?_, ?_, ?_, ?_, ?_⟩
  · simp [setState, getState, assocLookup_assocSet_self]
  · by_cases h1 : key = "theme"
    · simp [setState, persistState, h1]
    · by_cases h2 : key = "language" <;> simp [setState, persistState, h1, h2]
  · by_cases h1 : key = "theme"
    · simp [setState, persistState, h1]
    · by_cases h2 : key = "language" <;> simp [setState, persistState, h1, h2]
  · by_cases h1 : key = "theme"
    · simp [setState, persistState, h1, invokedCalls_append, invokedCalls_notify,
        invokedCalls_nil, invokedCalls_setItem, invokedCalls_emitChanged,
        invokedCalls_cons_setItem]
    · by_cases h2 : key = "language" <;>
        simp [setState, persistState, h1, h2, invokedCalls_append, invokedCalls_notify,
          invokedCalls_nil, invokedCalls_setItem, invokedCalls_emitChanged,
        invokedCalls_cons_setItem]
  · by_cases h1 : key = "theme"
    · simp [setState, persistState, h1, changedEmits_append, changedEmits_notify,
        changedEmits_nil, changedEmits_setItem, changedEmits_emitChanged,
        changedEmits_cons_setItem]
    · by_cases h2 : key = "language" <;>
        simp [setState, persistState, h1, h2, changedEmits_append, changedEmits_notify,
          changedEmits_nil, changedEmits_setItem, changedEmits_emitChanged,
        changedEmits_cons_setItem]
  · simp [setState, ← List.append_assoc, List.getLast?_concat]

theorem getSubs_subscribeCb (m : List (String × List Callback)) (key : String)
    (cb : Callback) : getSubs (subscribeCb m key cb) key = getSubs m key ++ [cb] := by
  cases h : assocLookup m key with
  | some l => simp [subscribeCb, h, getSubs, assocLookup_assocSet_self]
  | none =>
      have happ : assocLookup (m ++ [(key, [cb])]) key = some [cb] := by
        induction m with
        | nil => simp [assocLookup]
        | cons kv rest ih =>
            obtain ⟨k, w⟩ := kv
            by_cases hk : k = key
            · simp [assocLookup, hk] at h
            · simp [assocLookup, hk] at h ⊢
              exact ih h
      simp [subscribeCb, h, getSubs, happ]

theorem getSubs_subscribeEach (m : List (String × List Callback)) (key : String)
    (cbs : List Callback) : getSubs (subscribeEach m key cbs) key = getSubs m key ++ cbs := by
  induction cbs generalizing m with
  | nil => simp [subscribeEach]
  | cons cb cbs ih =>
      show getSubs (subscribeEach (subscribeCb m key cb) key cbs) key = _
      rw [ih, getSubs_subscribeCb, List.append_assoc]
      rfl

/-- C2: subscribers are stored in subscription order and notified in that
same order; a callback that throws is invoked, has its error logged and
does not prevent any later subscriber from being invoked. -/
theorem subscriber_order_and_isolation (subs : List Callback) (v old : JsValue) :
    invokedCalls (notifySubscribers subs v old) = subs.map (fun cb => (cb.id, v, old)) ∧
    (∀ cb ∈ subs, Effect.invoke cb.id v old ∈ notifySubscribers subs v old) ∧
    (∀ cb ∈ subs, cb.run v old = false →
      Effect.consoleError cb.id ∈ notifySubscribers subs v old) ∧
    (∀ (m : List (String × List Callback)) (key : String) (cbs : List Callback),
      getSubs (subscribeEach m key cbs) key = getSubs m key ++ cbs) := by
  refine ⟨invokedCalls_notify subs v old, ?_, ?_, fun m key cbs => getSubs_subscribeEach m key cbs⟩
  · intro cb hmem
    exact List.mem_flatMap.mpr ⟨cb, hmem, List.mem_cons_self _ _⟩
  · intro cb hmem hthrow
    refine List.mem_flatMap.mpr ⟨cb, hmem, ?_⟩
    simp [hthrow]

/-- Concrete instantiation of the C2 theorem: with a throwing subscriber
followed by a normal one, both are invoked in order and the error of the
first is logged. -/
theorem subscriber_order_and_isolation_witness :
    invokedCalls (notifySubscribers [⟨0, fun _ _ => false⟩, ⟨1, fun _ _ => true⟩]
        (.str "dark") (.str "light")) =
      [(0, .str "dark", .str "light"), (1, .str "dark", .str "light")] ∧
    Effect.invoke 1 (.str "dark") (.str "light") ∈
      notifySubscribers [⟨0, fun _ _ => false⟩, ⟨1, fun _ _ => true⟩]
        (.str "dark") (.str "light") ∧
    Effect.consoleError 0 ∈
      notifySubscribers [⟨0, fun _ _ => false⟩, ⟨1, fun _ _ => true⟩]
        (.str "dark") (.str "light") := by
  have h := subscriber_order_and_isolation [⟨0, fun _ _ => false⟩, ⟨1, fun _ _ => true⟩]
    (.str "dark") (.str "light")
  exact ⟨h.1, h.2.1 ⟨1, fun _ _ => true⟩ (by simp), h.2.2.1 ⟨0, fun _ _ => false⟩ (by simp) rfl⟩

theorem getState_setState_self (subs : String → List Callback) (st : Store)
    (key : String) (v : JsValue) : getState (setState subs st key v).1 key = v := by
  simp [setState, getState, assocLookup_assocSet_self]

theorem isValidTheme_themeOk (v : JsValue) (h : isValidTheme v = true) : themeOk v := by
  cases v with
  | str s =>
      simp [isValidTheme] at h
      rcases h with h | h
      · exact Or.inl (by rw [h])
      · exact Or.inr (by rw [h])
  | undefined => simp [isValidTheme] at h
  | null => simp [isValidTheme] at h
  | bool b => simp [isValidTheme] at h
  | num n => simp [isValidTheme] at h
  | arr elems => simp [isValidTheme] at h
  | obj fields => simp [isValidTheme] at h

/-- C4: after `setTheme(input)`, `getCurrentTheme` and the persisted
`portfolio-theme` storage entry both equal the theme just applied: the
input itself when it is the string light or dark, and light — after a
logged warning — for any other input. -/
theorem setTheme_sets_and_persists (subs : String → List Callback) (st : Store)
    (input : JsValue) :
    getCurrentTheme (setTheme subs st input).1 =
      (if isValidTheme input then input else .str "light") ∧
    assocLookup (setTheme subs st input).1.storage "portfolio-theme" =
      some (jsToString (if isValidTheme input then input else .str "light")) ∧
    (isValidTheme input = false →
      Effect.consoleWarn (jsToString input) ∈ (setTheme subs st input).2) := by
  cases h : isValidTheme input with
  | true =>
      refine ⟨?_, ?_, fun hfalse => absurd hfalse (by decide)⟩
      · simp [setTheme, h, getCurrentTheme, getState_setState_self]
      · simp [setTheme, h, setState, persistState, assocLookup_assocSet_self]
  | false =>
      refine ⟨?_, ?_, fun _ => ?_⟩
      · simp [setTheme, h, getCurrentTheme, getState_setState_self]
      · simp [setTheme, h, setState, persistState, assocLookup_assocSet_self]
      · simp [setTheme, h]

/-- Concrete instantiation of the C4 theorem at the invalid input blue:
the theme is coerced to light and the coercion is warned about. -/
theorem setTheme_sets_and_persists_witness :
    getCurrentTheme (setTheme (fun _ => []) ⟨initialStateFields, []⟩ (.str "blue")).1 =
      .str "light" ∧
    Effect.consoleWarn "blue" ∈
      (setTheme (fun _ => []) ⟨initialStateFields, []⟩ (.str "blue")).2 := by
  have h := setTheme_sets_and_persists (fun _ => []) ⟨initialStateFields, []⟩ (.str "blue")
  exact ⟨by simpa [isValidTheme] using h.1, h.2.2 rfl⟩

/-- C5 as stated is false: from the reachable theme value blue (compare the
C7 counterexample) two consecutive toggles land on light, not back on the
starting value. -/
theorem toggleTheme_not_involutive :
    getState ⟨[("theme", JsValue.str "blue")], []⟩ "theme" = .str "blue" ∧
    getState (toggleTheme (fun _ => []) (toggleTheme (fun _ => [])
        ⟨[("theme", JsValue.str "blue")], []⟩).1).1 "theme" = .str "light" ∧
    JsValue.str "light" ≠ JsValue.str "blue" := by
  refine ⟨rfl, rfl, fun h => ?_⟩
  injection h with hs
  exact absurd hs (by decide)

/-- C5 amended: two consecutive `toggleTheme` calls restore the starting
theme whenever that starting theme is one of the two valid values light
and dark (from any other starting value the pair of toggles ends on
light). -/
theorem toggleTheme_from_light (subs : String → List Callback) (st : Store)
    (h : getState st "theme" = .str "light") :
    getState (toggleTheme subs st).1 "theme" = .str "dark" := by
  have hd : isDarkValue (getState st "theme") = false := by rw [h]; rfl
  simp [toggleTheme, hd, setTheme, isValidTheme, getState_setState_self]

theorem toggleTheme_from_dark (subs : String → List Callback) (st : Store)
    (h : getState st "theme" = .str "dark") :
    getState (toggleTheme subs st).1 "theme" = .str "light" := by
  have hd : isDarkValue (getState st "theme") = true := by rw [h]; rfl
  simp [toggleTheme, hd, setTheme, isValidTheme, getState_setState_self]

theorem toggleTheme_involutive_on_valid (subs1 subs2 : String → List Callback)
    (st : Store) (h : themeOk (getState st "theme")) :
    getState (toggleTheme subs2 (toggleTheme subs1 st).1).1 "theme" =
      getState st "theme" := by
  rcases h with h | h
  · rw [toggleTheme_from_dark subs2 _ (toggleTheme_from_light subs1 st h), h]
  · rw [toggleTheme_from_light subs2 _ (toggleTheme_from_dark subs1 st h), h]

/-- Concrete instantiation of the amended C5 theorem at a dark store. -/
theorem toggleTheme_involutive_witness :
    getState (toggleTheme (fun _ => []) (toggleTheme (fun _ => [])
        ⟨[("theme", JsValue.str "dark")], []⟩).1).1 "theme" =
      getState ⟨[("theme", JsValue.str "dark")], []⟩ "theme" :=
  toggleTheme_involutive_on_valid (fun _ => []) (fun _ => [])
    ⟨[("theme", JsValue.str "dark")], []⟩ (Or.inr rfl)

/-- C7 as stated is false: `loadPersistedState` copies any persisted string
into the theme state unvalidated, so startup from a storage entry blue
leaves the theme outside {light, dark}. -/
theorem theme_not_two_valued_via_storage :
    getState (newStateManager [("portfolio-theme", "blue")]) "theme" = .str "blue" ∧
    ¬ themeOk (JsValue.str "blue") := by
  refine ⟨rfl, fun h => ?_⟩
  rcases h with h | h <;> (injection h with hs; exact absurd hs (by decide))

/-- C7 amended: the two-valuedness of the theme is an invariant of the
ThemeManager operations only — `setTheme` (with arbitrary input, thanks to
the coercion) and `toggleTheme` always leave the theme in {light, dark} —
while `loadPersistedState` and a direct `setState` write whatever value
they are handed, unvalidated. -/
theorem theme_two_valued_under_ThemeManager (subs1 subs2 subs3 : String → List Callback)
    (st : Store) (input notheme : JsValue) :
    themeOk (getCurrentTheme (setTheme subs1 st input).1) ∧
    themeOk (getCurrentTheme (toggleTheme subs2 st).1) ∧
    getState (setState subs3 st "theme" notheme).1 "theme" = notheme := by
  refine ⟨?_, ?_, getState_setState_self subs3 st "theme" notheme⟩
  · cases h : isValidTheme input with
    | true =>
        have e : getCurrentTheme (setTheme subs1 st input).1 = input := by
          simp [setTheme, h, getCurrentTheme, getState_setState_self]
        rw [e]
        exact isValidTheme_themeOk input h
    | false =>
        have e : getCurrentTheme (setTheme subs1 st input).1 = .str "light" := by
          simp [setTheme, h, getCurrentTheme, getState_setState_self]
        rw [e]
        exact Or.inl rfl
  · cases hd : isDarkValue (getState st "theme") with
    | true =>
        have e : getCurrentTheme (toggleTheme subs2 st).1 = .str "light" := by
          simp [toggleTheme, hd, setTheme, isValidTheme, getCurrentTheme,
            getState_setState_self]
        rw [e]
        exact Or.inl rfl
    | false =>
        have e : getCurrentTheme (toggleTheme subs2 st).1 = .str "dark" := by
          simp [toggleTheme, hd, setTheme, isValidTheme, getCurrentTheme,
            getState_setState_self]
        rw [e]
        exact Or.inr rfl

theorem invokedCalls_cons_removeItem (k : String) (tr : List Effect) :
    invokedCalls (Effect.removeItem k :: tr) = invokedCalls tr := rfl

theorem invokedCalls_emitReset : invokedCalls [Effect.emitReset] = [] := rfl

/-- C8 as stated is false: `reset()` writes language en although the
constructor default is ko, so not every field returns to its
construction-time value. -/
theorem reset_language_not_constructor_default :
    getState (reset (fun _ => []) ⟨initialStateFields, []⟩).1 "language" = .str "en" ∧
    getState ⟨initialStateFields, []⟩ "language" = .str "ko" ∧
    JsValue.str "en" ≠ JsValue.str "ko" := by
  refine ⟨rfl, rfl, fun h => ?_⟩
  injection h with hs
  exact absurd hs (by decide)

/-- C8 amended: `reset()` replaces the state with the reset literal — the
construction defaults for theme, isNavOpen, isTypingAnimationComplete and
translations, but language en rather than the constructor default ko —
removes both persisted storage entries, and notifies each key's
subscribers with the restored value as new value and oldValue undefined,
in key order. -/
theorem reset_contract (subs : String → List Callback) (st : Store) :
    (reset subs st).1.state = resetStateFields ∧
    getState (reset subs st).1 "theme" = .str "light" ∧
    getState (reset subs st).1 "language" = .str "en" ∧
    getState (reset subs st).1 "isNavOpen" = .bool false ∧
    getState (reset subs st).1 "isTypingAnimationComplete" = .bool false ∧
    getState (reset subs st).1 "translations" = .obj [] ∧
    assocLookup (reset subs st).1.storage "portfolio-theme" = none ∧
    assocLookup (reset subs st).1.storage "portfolio-lang" = none ∧
    invokedCalls (reset subs st).2 =
      (resetStateFields.flatMap fun kv =>
        (subs kv.1).map fun cb => (cb.id, kv.2, JsValue.undefined)) := by
  refine ⟨rfl, rfl, rfl, rfl, rfl, rfl, ?_, ?_, ?_⟩
  · show assocLookup (assocRemove (assocRemove st.storage "portfolio-theme")
      "portfolio-lang") "portfolio-theme" = none
    rw [assocLookup_assocRemove_ne _ _ _ (by decide)]
    exact assocLookup_assocRemove_self _ _
  · exact assocLookup_assocRemove_self _ _
  · simp [reset, invokedCalls_append, invokedCalls_flatMap, invokedCalls_notify,
      invokedCalls_nil, invokedCalls_cons_removeItem, invokedCalls_emitReset]

/-- C3: `t` splits the key on dots and walks the loaded bundle segment by
segment; it returns the fallback (which defaults to the key string itself)
as soon as a segment is absent or the current value is not an indexable
object, and the leaf value when every segment resolves. -/
theorem t_resolves_dotted_path (tr : JsValue) (key : String) (fb : JsValue) :
    tFun tr key fb = (resolvePath tr (key.splitOn ".")).getD fb ∧
    tDefault tr key = (resolvePath tr (key.splitOn ".")).getD (.str key) :=
  ⟨tWalk_eq_resolvePath fb tr (key.splitOn "."),
   tWalk_eq_resolvePath (.str key) tr (key.splitOn ".")⟩

/-- C6 as stated is false: an HTTP-OK response whose body is the empty
JSON object passes the `data && typeof data === 'object'` check, so
`loadTranslations` writes an empty translations bundle to state rather
than leaving it non-empty. -/
theorem loadTranslations_accepts_empty_bundle :
    getState (loadTranslations (fun _ => []) false (fun _ => .ok (some (.obj []))) "en"
        ⟨initialStateFields, []⟩).1 "translations" = .obj [] ∧
    isEmptyObject (getState (loadTranslations (fun _ => []) false
        (fun _ => .ok (some (.obj []))) "en"
        ⟨initialStateFields, []⟩).1 "translations") = true :=
  ⟨rfl, rfl⟩

/-- C6 amended: when no load is in flight and the fetch loop yields no
usable payload — no candidate path gets an HTTP-OK response, or the first
HTTP-OK body fails to parse, or it parses to a falsy or non-object value —
`loadTranslations` writes the hardcoded fallback bundle to the
translations state: the Korean bundle when the current language state is
ko, the English bundle otherwise; both fallback bundles are non-empty. -/
theorem loadTranslations_fallback_guarantee (subs : String → List Callback)
    (f : String → FetchOutcome) (lang : String) (st : Store)
    (h : ∀ d, firstOkResult f (candidatePaths lang) = some (some d) →
      acceptablePayload d = false) :
    getState (loadTranslations subs false f lang st).1 "translations" =
      (if isKo (getState st "language") then koFallback else enFallback) ∧
    isEmptyObject koFallback = false ∧ isEmptyObject enFallback = false := by
  refine ⟨?_, rfl, rfl⟩
  unfold loadTranslations
  cases hc : firstOkResult f (candidatePaths lang) with
  | none => simp [getState_setState_self, getFallbackTranslations]
  | some payload =>
      cases payload with
      | none => simp [getState_setState_self, getFallbackTranslations]
      | some d =>
          have hd := h d hc
          simp [hd, getState_setState_self, getFallbackTranslations]

/-- Concrete instantiation of the C6 amended theorem: every candidate
fetch rejects while the current language is ko, so the Korean fallback
bundle lands in the translations state. -/
theorem loadTranslations_fallback_witness :
    getState (loadTranslations (fun _ => []) false (fun _ => .netError) "ko"
        ⟨initialStateFields, []⟩).1 "translations" = koFallback ∧
    isEmptyObject koFallback = false := by
  have h := loadTranslations_fallback_guarantee (fun _ => []) (fun _ => .netError) "ko"
    ⟨initialStateFields, []⟩ (fun d hd => by simp [firstOkResult, candidatePaths] at hd)
  exact ⟨h.1, h.2.1⟩

theorem dropLeadingSpace_length_le (cs : List Char) :
    (dropLeadingSpace cs).length ≤ cs.length := by
  induction cs with
  | nil => simp [dropLeadingSpace]
  | cons c rest ih =>
      by_cases h : jsIsSpace c
      · simp only [dropLeadingSpace, h, if_true, List.length_cons]
        omega
      · simp [dropLeadingSpace, h]

theorem jsTrimList_length_le (cs : List Char) : (jsTrimList cs).length ≤ cs.length := by
  unfold jsTrimList
  have h1 := dropLeadingSpace_length_le cs
  have h2 := dropLeadingSpace_length_le (dropLeadingSpace cs).reverse
  simp only [List.length_reverse] at h2 ⊢
  omega

theorem cleanHtmlAndTruncate_length_le (html : String) (maxLength : Nat) :
    (cleanHtmlAndTruncate html maxLength).length ≤ maxLength + 3 := by
  unfold cleanHtmlAndTruncate
  by_cases h : (jsTrimList (stripTags html.data)).length ≤ maxLength
  · simp only [h, if_true]
    show (jsTrimList (stripTags html.data)).length ≤ maxLength + 3
    omega
  · simp only [h, if_false, String.length_append]
    have htake : ((jsTrimList (stripTags html.data)).take maxLength).length ≤ maxLength := by
      simp [List.length_take]
    have htrim := jsTrimList_length_le ((jsTrimList (stripTags html.data)).take maxLength)
    show (jsTrimList ((jsTrimList (stripTags html.data)).take maxLength)).length + 3 ≤
      maxLength + 3
    omega

theorem extractTags_length_le (categories : List RssCategory) :
    (extractTags categories).length ≤ 3 := by
  unfold extractTags
  cases h : categories.isEmpty with
  | true => simp
  | false => simp [List.length_take]

/-- C9: every PostSummary produced by `parseRssXml` carries the fixed
source tag tistory, at most three tags, and a description of at most 153
characters (the 150 cap plus the ellipsis); it copies the (defaulted)
title and link of a feed item, formats that item's publication date with
`formatDate`, derives its tags from the item's categories (the single
default tag Blog when the item has none), and keeps the item's
stripped-and-trimmed description verbatim when it is within the cap,
truncating it to the re-trimmed 150-character prefix with an appended
ellipsis exactly when it is over the cap. -/
theorem parseRssXml_post_shape (parse : String → Option JsDate) (items : List RssItem)
    (p : PostSummary) (hp : p ∈ parseRssXml parse items) :
    p.source = "tistory" ∧
    p.tags.length ≤ 3 ∧
    p.description.length ≤ 153 ∧
    ∃ item ∈ items,
      p.title = jsOrDefault item.title "제목 없음" ∧
      p.link = jsOrDefault item.link "#" ∧
      p.date = formatDate parse (jsOrDefault item.pubDate "") ∧
      p.tags = extractTags (item.categories.map RssCategory.str) ∧
      (item.categories = [] → p.tags = ["Blog"]) ∧
      ((jsTrimList (stripTags (jsOrDefault item.description "").data)).length ≤ 150 →
        p.description =
          String.mk (jsTrimList (stripTags (jsOrDefault item.description "").data))) ∧
      (150 < (jsTrimList (stripTags (jsOrDefault item.description "").data)).length →
        p.description =
          String.mk (jsTrimList
            ((jsTrimList (stripTags (jsOrDefault item.description "").data)).take 150)) ++
            "...") := by
  obtain ⟨item, hmem, hitem⟩ := List.mem_map.mp hp
  subst hitem
  refine ⟨rfl, extractTags_length_le _, cleanHtmlAndTruncate_length_le _ 150,
    item, List.take_subset maxPosts items hmem, rfl, rfl, rfl, rfl, ?_, ?_, ?_⟩
  · intro hcat
    show extractTags (item.categories.map RssCategory.str) = ["Blog"]
    simp [hcat, extractTags]
  · intro hle
    show cleanHtmlAndTruncate (jsOrDefault item.description "") 150 = _
    simp [cleanHtmlAndTruncate, hle]
  · intro hgt
    show cleanHtmlAndTruncate (jsOrDefault item.description "") 150 = _
    simp [cleanHtmlAndTruncate, Nat.not_le.mpr hgt]

/-- Concrete instantiation of the C9 theorem on a sample one-item feed. -/
theorem parseRssXml_post_shape_witness :
    (mkPost demoParse demoItem).source = "tistory" ∧
    (mkPost demoParse demoItem).tags = ["Blog"] ∧
    (mkPost demoParse demoItem).date = "2024.12.15" ∧
    (mkPost demoParse demoItem).description = "hello world" ∧
    (mkPost demoParse demoItem).description.length ≤ 153 := by
  have h := parseRssXml_post_shape demoParse [demoItem] (mkPost demoParse demoItem)
    (by simp [parseRssXml, maxPosts])
  refine ⟨h.1, ?_, rfl, rfl, h.2.2.1⟩
  rcases h.2.2.2 with ⟨item, hitem, hrest⟩
  have hi : item = demoItem := by simpa using hitem
  subst hi
  exact hrest.2.2.2.2.1 rfl

theorem dot_mem_append3 (a b c : String) : '.' ∈ (a ++ "." ++ b ++ "." ++ c).data := by
  simp [String.data_append]

/-- C10: `formatDate` is total and its catch branch is unreachable — the
Date constructor and component getters never throw, so an unparseable
input yields the literal NaN.NaN.NaN rather than the catch-branch
unknown-date marker, and no input at all produces that marker. -/
theorem formatDate_total_no_catch (parse : String → Option JsDate) (s : String) :
    formatDate parse s ≠ "날짜 미상" ∧
    (parse s = none → formatDate parse s = "NaN.NaN.NaN") := by
  constructor
  · cases hp : parse s with
    | none =>
        have he : formatDate parse s = "NaN.NaN.NaN" := by simp [formatDate, hp]
        rw [he]
        decide
    | some d =>
        have he : formatDate parse s =
            toString d.year ++ "." ++ padStart2 (toString (d.monthIndex + 1)) ++ "." ++
              padStart2 (toString d.day) := by simp [formatDate, hp]
        rw [he]
        intro hcontra
        have hdot := dot_mem_append3 (toString d.year)
          (padStart2 (toString (d.monthIndex + 1))) (padStart2 (toString d.day))
        rw [hcontra] at hdot
        exact absurd hdot (by decide)
  · intro hp
    simp [formatDate, hp]

/-- Concrete instantiation of the C10 theorem on an unparseable date
string. -/
theorem formatDate_total_no_catch_witness :
    formatDate (fun _ => none) "not a date" ≠ "날짜 미상" ∧
    formatDate (fun _ => none) "not a date" = "NaN.NaN.NaN" :=
  ⟨(formatDate_total_no_catch (fun _ => none) "not a date").1,
   (formatDate_total_no_catch (fun _ => none) "not a date").2 rfl⟩

end Portfolio
